import Mathlib

/-!
# thegamerswave: the game endpoints

A shallow embedding of `src/api/endpoints/game_routes.go`: the records, the
fetch of the owned games, the ranking `topFiveGames`, the genre lookup and the
four handlers, followed by the properties of the specification.

Conventions of the embedding.

* A Go slice is an `Option (List α)`: `none` is the nil slice, `some []` an
  empty slice that is not nil.  `len` of both is `0`.
* Go `int` values are `Int`; the only arithmetic in the file is one division
  by 1440, which cannot overflow.
* What lies outside the repository is an input: the process environment and
  the two remote services are the fields of `Env`, the library sort behind
  `sort.Slice` is a function `SortSlice`, the Unicode lower-case table behind
  `strings.ToLower` is a function on characters.
* The handlers run on `Effects`: the status line sent to the client, the
  pieces written to the response body in order, and the lines of the log.
-/

namespace GamersWave

/-! ## Records -/

/-- The Go struct `GameInfo`. -/
structure GameInfo where
  AppID : Int
  Name : String
  Playtime : Int
  ImageURL : String
  deriving DecidableEq, Repr

/-- The Go struct `GameData`. -/
structure GameData where
  Name : String
  ImageUrl : String
  Message : String
  deriving DecidableEq, Repr

/-- The Go struct `GenreInfo`. -/
structure GenreInfo where
  Name : String
  deriving DecidableEq, Repr

/-- A Go slice: `none` is nil. -/
abbrev Slice (α : Type) := Option (List α)

/-- The elements of a slice; a nil slice has none. -/
def Slice.toList {α : Type} : Slice α → List α
  | none => []
  | some xs => xs

/-- Go `len`. -/
def Slice.len {α : Type} (s : Slice α) : Nat := (Slice.toList s).length

/-- Go `append(s, x)`: the result is never nil. -/
def Slice.append {α : Type} (s : Slice α) (x : α) : Slice α :=
  some (Slice.toList s ++ [x])

/-- The Go struct `TopGenreGameInfo`. -/
structure TopGenreGameInfo where
  Name : String
  Genre : Slice GenreInfo
  deriving DecidableEq, Repr

/-! ## The ranking -/

/-- The requirement `sort.Slice` puts on its `less` argument: a strict weak
ordering. -/
structure StrictWeak {α : Type} (less : α → α → Bool) : Prop where
  irrefl : ∀ a, less a a = false
  trans : ∀ a b c, less a b = true → less b c = true → less a c = true
  incomp : ∀ a b c, less a b = false → less b c = false → less a c = false

/-- The library routine behind `sort.Slice`, as a function of the comparison
and of the elements of the slice. -/
abbrev SortSlice := (GameInfo → GameInfo → Bool) → List GameInfo → List GameInfo

/-- The documented contract of `sort.Slice`: the elements are rearranged, and
under a strict weak ordering no element is `less` than one placed before it.
Nothing is promised about equal keys. -/
structure SortContract (sortSlice : SortSlice) : Prop where
  perm : ∀ less xs, List.Perm (sortSlice less xs) xs
  sorted : ∀ less xs, StrictWeak less →
    List.Pairwise (fun a b => less b a = false) (sortSlice less xs)

/-- The closure passed to `sort.Slice` in `topFiveGames`:
`games[i].Playtime > games[j].Playtime`. -/
def byPlaytime (a b : GameInfo) : Bool := decide (a.Playtime > b.Playtime)

/-- Go `topFiveGames`: sort in place by descending playtime, then reslice to
the first five when there are more.  A nil slice stays nil. -/
def topFiveGames (sortSlice : SortSlice) (games : Slice GameInfo) : Slice GameInfo :=
  let maxCount := 5
  let games := games.map (sortSlice byPlaytime)
  if Slice.len games > maxCount then
    games.map (List.take maxCount)
  else
    games

/-! ### One sorter: the insertion sort of the Go library -/

/-- The inner loop of the Go library routine `insertionSortLessFunc`, on the
part already sorted, held last element first: the new element moves left while it is
`less` than its left neighbour. -/
def sinkLeft (less : GameInfo → GameInfo → Bool) (x : GameInfo) :
    List GameInfo → List GameInfo
  | [] => [x]
  | y :: ys => if less x y then y :: sinkLeft less x ys else x :: y :: ys

/-- The outer loop of the insertion sort: `done` is the sorted part, last
element first. -/
def insertionLoop (less : GameInfo → GameInfo → Bool) :
    List GameInfo → List GameInfo → List GameInfo
  | done, [] => done.reverse
  | done, x :: rest => insertionLoop less (sinkLeft less x done) rest

/-- Insertion sort of a whole slice. -/
def insertionSort : SortSlice := fun less xs =>
  insertionLoop less [] xs

/-! ## What a handler does to the outside -/

/-- One piece written to the response body: the text of a `c.String`, or the
value handed to a `c.JSON`. -/
inductive Payload where
  | text (s : String)
  | games (v : Slice GameInfo)
  | gameData (v : Slice GameData)
  | topGenres (v : Slice TopGenreGameInfo)
  deriving DecidableEq, Repr

/-- The visible effects of a request so far.  `status` is the status line the
client receives: it is fixed by the first write to the response and later
writes cannot change it. -/
structure Effects where
  status : Option Nat
  body : List Payload
  log : List String
  deriving DecidableEq, Repr

/-- The state in which a handler is entered. -/
def Effects.fresh : Effects := ⟨none, [], []⟩

/-- Go `http.StatusOK`. -/
def StatusOK : Nat := 200

/-- Go `http.StatusInternalServerError`. -/
def StatusInternalServerError : Nat := 500

/-- A write to the response with a wanted status: the header goes out with the
first write only, the piece is added to the body. -/
def Effects.write (code : Nat) (p : Payload) (st : Effects) : Effects :=
  { st with
    status := (match st.status with
      | none => some code
      | some sent => some sent)
    body := st.body ++ [p] }

/-- The call `c.String(code, s)` of gin. -/
def cString (code : Nat) (s : String) (st : Effects) : Effects :=
  st.write code (Payload.text s)

/-- The call `c.JSON(code, v)` of gin. -/
def cJSON (code : Nat) (v : Payload) (st : Effects) : Effects :=
  st.write code v

/-- The calls `log.Println` and `log.Printf`: one line to the log. -/
def logLine (s : String) (st : Effects) : Effects :=
  { st with log := st.log ++ [s] }

/-- The result of a piece of handler code: either the process was ended by
`log.Fatalf`, or the code returned a value. -/
inductive Step (α : Type) where
  | exit (st : Effects) : Step α
  | next (a : α) (st : Effects) : Step α
  deriving DecidableEq

/-- The effects at the end of a step, however it ended. -/
def Step.effects {α : Type} : Step α → Effects
  | Step.exit st => st
  | Step.next _ st => st

/-- The `%d` verb of `fmt.Sprintf` on an `int`. -/
def fmtD (n : Int) : String := toString n

/-! ## The outside world -/

/-- What the call to the ownership service gives, from `http.Get` to
`json.Unmarshal`. -/
inductive SteamReply where
  | transportError (err : String)
  | unreadableBody (err : String)
  | malformedJSON (err : String)
  | decoded (games : Slice GameInfo)

/-- What the call to the genre service gives, from `http.Get` to `Decode`. -/
inductive RawgReply where
  | transportError (err : String)
  | decodeError (err : String)
  | decoded (genres : Slice GenreInfo)

/-- The inputs of a request that the program does not compute. -/
structure Env where
  /-- the error of `godotenv.Load()`, if it fails -/
  dotenv : Option String
  /-- the value of `os.Getenv("STEAM_API_KEY")` -/
  steamAPIKey : String
  /-- the value of `os.Getenv("RAWG_API_KEY")` -/
  rawgAPIKey : String
  /-- the value of `c.Param("steamId")` -/
  steamId : String
  /-- the ownership service, by URL -/
  steamGet : String → SteamReply
  /-- the genre service, by URL -/
  rawgGet : String → RawgReply

/-! ## fetchOwnedGames -/

/-- The body of the loop that closes `fetchOwnedGames`: the image address is
written from the application id. -/
def setImageURL (g : GameInfo) : GameInfo :=
  { g with
    ImageURL := "https://cdn.akamai.steamstatic.com/steam/apps/" ++ fmtD g.AppID ++ "/header.jpg" }

/-- The address built in `fetchOwnedGames`. -/
def steamURL (steamAPIKey steamID : String) : String :=
  "https://api.steampowered.com/IPlayerService/GetOwnedGames/v1/?key=" ++ steamAPIKey ++
    "&steamid=" ++ steamID ++ "&include_appinfo=1"

/-- Go `fetchOwnedGames`. -/
def fetchOwnedGames (env : Env) (st : Effects) : Step (Slice GameInfo) :=
  match env.dotenv with
  | some err => Step.exit (logLine ("Error loading .env file: " ++ err) st)
  | none =>
    let steamID := env.steamId
    let steamAPIKey := env.steamAPIKey
    if steamAPIKey = "" then
      Step.next none
        (cString StatusInternalServerError "Steam API key not found"
          (logLine "Steam API key not found" st))
    else
      match env.steamGet (steamURL steamAPIKey steamID) with
      | SteamReply.transportError err =>
        Step.next none
          (cString StatusInternalServerError "Failed to make request to Steam Web API"
            (logLine ("Failed to make request: " ++ err) st))
      | SteamReply.unreadableBody err =>
        Step.next none
          (cString StatusInternalServerError "Failed to read response body"
            (logLine ("Failed to read response body: " ++ err) st))
      | SteamReply.malformedJSON err =>
        Step.next none
          (cString StatusInternalServerError "Failed to parse JSON response"
            (logLine ("Failed to parse JSON response: " ++ err) st))
      | SteamReply.decoded games =>
        Step.next (games.map (List.map setImageURL)) st

/-! ## The handlers -/

/-- Go `OwnedGames`. -/
def OwnedGames (env : Env) : Step Unit :=
  match fetchOwnedGames env Effects.fresh with
  | Step.exit st => Step.exit st
  | Step.next ownedGames st =>
    match ownedGames with
    | none => Step.next () (cString StatusInternalServerError "Could not find games" st)
    | some _ => Step.next () (cJSON StatusOK (Payload.games ownedGames) st)

/-- The message computed in the loop of `GamePlayData`. -/
def playMessage (game : GameInfo) : String :=
  let message := ""
  if game.Playtime > 0 then
    let days := Int.tdiv game.Playtime 1440
    if days > 0 then
      "You have played " ++ game.Name ++ " for a total of " ++ fmtD days ++ " days"
    else message
  else message

/-- One turn of the loop of `GamePlayData`. -/
def playDataStep (gameDataList : Slice GameData) (game : GameInfo) : Slice GameData :=
  let message := playMessage game
  let gameData : GameData :=
    { Name := game.Name, ImageUrl := game.ImageURL, Message := message }
  Slice.append gameDataList gameData

/-- Go `GamePlayData`. -/
def GamePlayData (env : Env) : Step Unit :=
  match fetchOwnedGames env Effects.fresh with
  | Step.exit st => Step.exit st
  | Step.next ownedGames st =>
    let gameDataList : Slice GameData := none
    match ownedGames with
    | none => Step.next () (cString StatusInternalServerError "Could not find games" st)
    | some games =>
      let gameDataList := games.foldl playDataStep gameDataList
      Step.next () (cJSON StatusOK (Payload.gameData gameDataList) st)

/-- Go `GetTopGames`. -/
def GetTopGames (sortSlice : SortSlice) (env : Env) : Step Unit :=
  match fetchOwnedGames env Effects.fresh with
  | Step.exit st => Step.exit st
  | Step.next ownedGames st =>
    let topGames := topFiveGames sortSlice ownedGames
    Step.next () (cJSON StatusOK (Payload.games topGames) st)

/-- A genre lookup as `GetTopGenres` sees it: it returns genres or an error,
unless it ends the process. -/
abbrev GenreLookup := GameInfo → Effects → Step (Except String (Slice GenreInfo))

/-- The loop of `GetTopGenres` over the ranked games, with its early return. -/
def genreLoop (lookup : GenreLookup) :
    List GameInfo → Slice TopGenreGameInfo → Effects → Step Unit
  | [], games, st => Step.next () (cJSON StatusOK (Payload.topGenres games) st)
  | game :: rest, games, st =>
    match lookup game st with
    | Step.exit st => Step.exit st
    | Step.next (Except.error _) st =>
      Step.next () (cString StatusInternalServerError "Could not find game genres" st)
    | Step.next (Except.ok genre) st =>
      let entry : TopGenreGameInfo := { Name := game.Name, Genre := genre }
      genreLoop lookup rest (Slice.append games entry) st

/-- Go `GetTopGenres`, for a given genre lookup. -/
def GetTopGenresWith (lookup : GenreLookup) (sortSlice : SortSlice) (env : Env) : Step Unit :=
  let games : Slice TopGenreGameInfo := none
  match fetchOwnedGames env Effects.fresh with
  | Step.exit st => Step.exit st
  | Step.next ownedGames st =>
    let topGames := topFiveGames sortSlice ownedGames
    match ownedGames with
    | none => Step.next () (cString StatusInternalServerError "Could not find games" st)
    | some _ =>
      match topGames with
      | none => Step.next () (cString StatusInternalServerError "Could not find top games" st)
      | some ranked => genreLoop lookup ranked games st

/-! ## fetchGenreData -/

/-- The scan of Go `strings.Replace(s, old, new, -1)` for a non-empty `old`,
on the runes still to be read: `skip` counts the runes of a match just
replaced that are still to be passed over. -/
def replaceScan (old new : List Char) : Nat → List Char → List Char
  | _, [] => []
  | skip + 1, _ :: cs => replaceScan old new skip cs
  | 0, c :: cs =>
    if old.isPrefixOf (c :: cs) then new ++ replaceScan old new (old.length - 1) cs
    else c :: replaceScan old new 0 cs

/-- Go `strings.ReplaceAll(s, old, new)`: every non-overlapping instance of
`old`, from the left, becomes `new`; an empty `old` matches before every rune
and at the end. -/
def stringsReplaceAll (s old new : String) : String :=
  if old.data = [] then
    String.mk (new.data ++ s.data.flatMap (fun c => c :: new.data))
  else
    String.mk (replaceScan old.data new.data 0 s.data)

/-- Go `unicode.ToLower`: the ASCII range is handled in place, every other rune
goes through the case tables of the library, here `tbl`. -/
def unicodeToLower (tbl : Char → Char) (r : Char) : Char :=
  if r.val ≤ 127 then
    if 'A' ≤ r ∧ r ≤ 'Z' then Char.ofNat (r.toNat + ('a'.toNat - 'A'.toNat)) else r
  else tbl r

/-- Go `strings.ToLower`: every rune mapped by `unicode.ToLower`. -/
def stringsToLower (tbl : Char → Char) (s : String) : String :=
  String.mk (s.data.map (unicodeToLower tbl))

/-- The class `\w` of the Go regular expressions: `[0-9A-Za-z_]`. -/
def perlWord (c : Char) : Bool :=
  decide (('0' ≤ c ∧ c ≤ '9') ∨ ('A' ≤ c ∧ c ≤ 'Z') ∨ c = '_' ∨ ('a' ≤ c ∧ c ≤ 'z'))

/-- The expression `[^\w-]` compiled in `fetchGenreData`: one rune that is
neither in `\w` nor a hyphen. -/
def notWordOrHyphen (c : Char) : Bool := !(perlWord c || c == '-')

/-- Go `ReplaceAllString` for an expression that matches exactly the single
runes of a class: each match is replaced by `repl`. -/
def replaceAllString (cls : Char → Bool) (src repl : String) : String :=
  String.mk (src.data.flatMap (fun c => if cls c then repl.data else [c]))

/-- The value of `formattedName` in `fetchGenreData`. -/
def formattedName (tbl : Char → Char) (game : GameInfo) : String :=
  let formattedName := stringsToLower tbl (stringsReplaceAll game.Name " " "-")
  replaceAllString notWordOrHyphen formattedName ""

/-- The value of `rawgUrl` in `fetchGenreData`. -/
def rawgUrl (tbl : Char → Char) (env : Env) (game : GameInfo) : String :=
  "https://api.rawg.io/api/games/" ++ formattedName tbl game ++ "?key=" ++ env.rawgAPIKey

/-- Go `fetchGenreData`. -/
def fetchGenreData (tbl : Char → Char) (env : Env) : GenreLookup := fun game st =>
  match env.dotenv with
  | some err => Step.exit (logLine ("Error loading .env file: " ++ err) st)
  | none =>
    match env.rawgGet (rawgUrl tbl env game) with
    | RawgReply.transportError err => Step.next (Except.error err) st
    | RawgReply.decodeError err => Step.next (Except.error err) st
    | RawgReply.decoded genres => Step.next (Except.ok genres) st

/-- Go `GetTopGenres`. -/
def GetTopGenres (tbl : Char → Char) (sortSlice : SortSlice) (env : Env) : Step Unit :=
  GetTopGenresWith (fetchGenreData tbl env) sortSlice env

/-! ### The slug in the words of the specification -/

/-- A word character as the specification words it: a letter, a digit or the
underscore, for a given reading of "letter" and of "digit". -/
def specWordChar (letter digit : Char → Bool) (c : Char) : Bool :=
  letter c || digit c || c == '_'

/-- The slug as the specification words it, for a given class `word` of word
characters: lower-case the name, replace every space with a hyphen, then strip
every character that is neither a word character nor a hyphen. -/
def specSlug (word : Char → Bool) (tbl : Char → Char) (name : String) : String :=
  let lowered := name.data.map (unicodeToLower tbl)
  let hyphened := lowered.map (fun c => if c = ' ' then '-' else c)
  String.mk (hyphened.filter (fun c => word c || c == '-'))

/-- The word characters when "letter" and "digit" are read within ASCII:
`A` to `Z`, `a` to `z`, `0` to `9` and the underscore. -/
def asciiWordChar : Char → Bool := specWordChar Char.isAlpha Char.isDigit

/-- The letters of Unicode among the first 256 runes (Basic Latin and Latin-1
Supplement): the letters of ASCII, the two ordinal indicators, the micro sign,
and U+00C0 to U+00FF without the multiplication and the division sign. -/
def latin1Letter (c : Char) : Bool :=
  c.isAlpha || decide (c.toNat = 0xAA) || decide (c.toNat = 0xB5) || decide (c.toNat = 0xBA) ||
    decide (0xC0 ≤ c.toNat ∧ c.toNat ≤ 0xFF ∧ c.toNat ≠ 0xD7 ∧ c.toNat ≠ 0xF7)

/-- The word characters when "letter" takes in the letters of Latin-1. -/
def latin1WordChar : Char → Bool := specWordChar latin1Letter Char.isDigit

/-- A genre lookup that is a plain function from a game to genres or an error:
it touches neither the response nor the log and never ends the process. -/
def pureLookup (f : GameInfo → Except String (Slice GenreInfo)) : GenreLookup :=
  fun game st => Step.next (f game) st

/-! ## Sample inputs -/

/-- A request for which the key of the ownership service is not configured. -/
def envNoKey : Env where
  dotenv := none
  steamAPIKey := ""
  rawgAPIKey := "r"
  steamId := "76561197960287930"
  steamGet := fun _ => SteamReply.decoded none
  rawgGet := fun _ => RawgReply.decoded none

/-- A request answered with three games; the second record arrives with an
`ImageURL` member of its own. -/
def envThree : Env where
  dotenv := none
  steamAPIKey := "k"
  rawgAPIKey := "r"
  steamId := "76561197960287930"
  steamGet := fun _ => SteamReply.decoded
    (some [⟨400, "Portal", 1500, ""⟩, ⟨220, "Half-Life 2", 1439, "x"⟩, ⟨730, "CS", 0, ""⟩])
  rawgGet := fun _ => RawgReply.decoded (some [⟨"Action"⟩])

/-- A request whose genre service answers with one genre, named by the address
that was requested. -/
def envEcho : Env where
  dotenv := none
  steamAPIKey := "k"
  rawgAPIKey := "r"
  steamId := "76561197960287930"
  steamGet := fun _ => SteamReply.decoded none
  rawgGet := fun url => RawgReply.decoded (some [⟨url⟩])

/-- A case table that leaves every rune outside ASCII as it is. -/
def plainTable : Char → Char := fun c => c

/-! ## Lemmas on the ranking -/

/-- The comparison of `topFiveGames` is a strict weak ordering. -/
theorem byPlaytime_strictWeak : StrictWeak byPlaytime := by
  refine ⟨?_, ?_, ?_⟩
  · intro a; simp [byPlaytime]
  · intro a b c h1 h2
    simp only [byPlaytime, decide_eq_true_eq] at h1 h2 ⊢
    omega
  · intro a b c h1 h2
    simp only [byPlaytime, decide_eq_false_iff_not] at h1 h2 ⊢
    omega

/-- Sinking an element into a list keeps the elements. -/
theorem sinkLeft_perm (less : GameInfo → GameInfo → Bool) (x : GameInfo) :
    ∀ done : List GameInfo, List.Perm (sinkLeft less x done) (x :: done)
  | [] => List.Perm.refl _
  | y :: ys => by
    unfold sinkLeft
    split
    · exact ((sinkLeft_perm less x ys).cons y).trans (List.Perm.swap x y ys)
    · exact List.Perm.refl _

/-- Sinking an element into a sorted part leaves it sorted. -/
theorem sinkLeft_pairwise {less : GameInfo → GameInfo → Bool} (hw : StrictWeak less)
    (x : GameInfo) :
    ∀ done : List GameInfo, done.Pairwise (fun a b => less a b = false) →
      (sinkLeft less x done).Pairwise (fun a b => less a b = false)
  | [], _ => by simp [sinkLeft]
  | y :: ys, h => by
    have hy := List.pairwise_cons.mp h
    unfold sinkLeft
    split
    · rename_i hxy
      refine List.pairwise_cons.mpr ⟨?_, sinkLeft_pairwise hw x ys hy.2⟩
      intro z hz
      rcases List.mem_cons.mp ((sinkLeft_perm less x ys).mem_iff.mp hz) with rfl | hz
      · cases hyz : less y z with
        | false => rfl
        | true => have := hw.trans _ _ _ hxy hyz; simp [hw.irrefl] at this
      · exact hy.1 z hz
    · rename_i hxy
      have hxy : less x y = false := by simpa using hxy
      refine List.pairwise_cons.mpr ⟨?_, h⟩
      intro z hz
      rcases List.mem_cons.mp hz with rfl | hz
      · exact hxy
      · exact hw.incomp _ _ _ hxy (hy.1 z hz)

/-- The outer loop keeps the elements. -/
theorem insertionLoop_perm (less : GameInfo → GameInfo → Bool) :
    ∀ (rest done : List GameInfo),
      List.Perm (insertionLoop less done rest) (done.reverse ++ rest)
  | [], done => by simp [insertionLoop]
  | x :: rest, done => by
    unfold insertionLoop
    refine (insertionLoop_perm less rest (sinkLeft less x done)).trans ?_
    have h1 : List.Perm (sinkLeft less x done).reverse (x :: done.reverse) :=
      (List.reverse_perm _).trans
        ((sinkLeft_perm less x done).trans ((List.reverse_perm done).symm.cons x))
    refine (h1.append_right rest).trans ?_
    simpa using (@List.perm_middle _ x done.reverse rest).symm

/-- The outer loop ends on a sorted slice. -/
theorem insertionLoop_pairwise {less : GameInfo → GameInfo → Bool} (hw : StrictWeak less) :
    ∀ (rest done : List GameInfo), done.Pairwise (fun a b => less a b = false) →
      (insertionLoop less done rest).Pairwise (fun a b => less b a = false)
  | [], done, h => by
    unfold insertionLoop
    exact List.pairwise_reverse.mpr h
  | x :: rest, done, h => by
    unfold insertionLoop
    exact insertionLoop_pairwise hw rest _ (sinkLeft_pairwise hw x done h)

/-- The insertion sort meets the contract of `sort.Slice`. -/
theorem insertionSort_contract : SortContract insertionSort where
  perm := fun less xs => by
    simpa [insertionSort] using insertionLoop_perm less xs []
  sorted := fun less xs hw => by
    simpa [insertionSort] using insertionLoop_pairwise hw xs [] List.Pairwise.nil

/-- The elements `topFiveGames` returns: the first five of the sorted input. -/
theorem topFiveGames_toList (sortSlice : SortSlice) (games : Slice GameInfo) :
    Slice.toList (topFiveGames sortSlice games) =
      (Slice.toList (games.map (sortSlice byPlaytime))).take 5 := by
  cases games with
  | none => simp [topFiveGames, Slice.len, Slice.toList]
  | some xs =>
    by_cases h : (sortSlice byPlaytime xs).length > 5
    · simp [topFiveGames, Slice.len, Slice.toList, h]
    · simp only [topFiveGames, Option.map_some', Slice.len, Slice.toList, h, if_false]
      rw [List.take_of_length_le (by omega)]

/-- The sorted slice holds the elements of the slice, rearranged. -/
theorem sorted_toList_perm {sortSlice : SortSlice} (hS : SortContract sortSlice)
    (games : Slice GameInfo) :
    List.Perm (Slice.toList (games.map (sortSlice byPlaytime))) (Slice.toList games) := by
  cases games with
  | none => exact List.Perm.refl _
  | some xs => exact hS.perm byPlaytime xs

/-- The sorted slice is in non-increasing order of playtime. -/
theorem sorted_toList_pairwise {sortSlice : SortSlice} (hS : SortContract sortSlice)
    (games : Slice GameInfo) :
    (Slice.toList (games.map (sortSlice byPlaytime))).Pairwise
      (fun a b => a.Playtime ≥ b.Playtime) := by
  cases games with
  | none => exact List.Pairwise.nil
  | some xs =>
    refine (hS.sorted byPlaytime xs byPlaytime_strictWeak).imp ?_
    intro a b h
    simp only [byPlaytime, decide_eq_false_iff_not] at h
    omega

/-- A nil slice is ranked to a nil slice and no other slice is. -/
theorem topFiveGames_eq_none (sortSlice : SortSlice) (games : Slice GameInfo) :
    topFiveGames sortSlice games = none ↔ games = none := by
  cases games with
  | none => simp [topFiveGames, Slice.len, Slice.toList]
  | some xs =>
    simp only [topFiveGames, Option.map_some', Slice.len, Slice.toList]
    split <;> simp

/-- The one order in which three games of playtimes 10, 500 and 200 can come
out of the sort. -/
theorem sorted_three (l : List GameInfo) (a b c : GameInfo)
    (ha : a.Playtime = 10) (hb : b.Playtime = 500) (hc : c.Playtime = 200)
    (hp : l.Perm [a, b, c]) (hs : l.Pairwise (fun x y => x.Playtime ≥ y.Playtime)) :
    l = [b, c, a] := by
  have hm : l.map GameInfo.Playtime = [500, 200, 10] := by
    refine List.eq_of_perm_of_sorted (r := (· ≥ ·)) ?_ ?_ ?_
    · refine (hp.map _).trans ?_
      simp only [List.map_cons, List.map_nil, ha, hb, hc]
      exact (List.Perm.swap _ _ _).trans ((List.Perm.swap _ _ _).cons _)
    · exact List.pairwise_map.mpr hs
    · decide
  have hl := hp.length_eq
  obtain ⟨p, q, r, rfl⟩ := List.length_eq_three.mp hl
  simp only [List.map_cons, List.map_nil, List.cons.injEq, and_true] at hm
  obtain ⟨hp1, hq1, hr1⟩ := hm
  have mp := hp.mem_iff (a := p)
  have mq := hp.mem_iff (a := q)
  have mr := hp.mem_iff (a := r)
  simp only [List.mem_cons, List.mem_singleton, true_or, or_true, List.not_mem_nil, or_false,
    true_iff] at mp mq mr
  have e1 : p = b := by
    rcases mp with h | h | h
    · rw [h, ha] at hp1; omega
    · exact h
    · rw [h, hc] at hp1; omega
  have e2 : q = c := by
    rcases mq with h | h | h
    · rw [h, ha] at hq1; omega
    · rw [h, hb] at hq1; omega
    · exact h
  have e3 : r = a := by
    rcases mr with h | h | h
    · exact h
    · rw [h, hb] at hr1; omega
    · rw [h, hc] at hr1; omega
  rw [e1, e2, e3]

/-! ## Lemmas on the fetch -/

/-- The fetch when no key is configured. -/
theorem fetch_noKey (env : Env) (st : Effects) (hload : env.dotenv = none)
    (hkey : env.steamAPIKey = "") :
    fetchOwnedGames env st = Step.next none
      (cString StatusInternalServerError "Steam API key not found"
        (logLine "Steam API key not found" st)) := by
  simp [fetchOwnedGames, hload, hkey]

/-- The fetch when `http.Get` fails. -/
theorem fetch_transportError (env : Env) (st : Effects) (err : String)
    (hload : env.dotenv = none) (hkey : env.steamAPIKey ≠ "")
    (hreply : env.steamGet (steamURL env.steamAPIKey env.steamId) =
      SteamReply.transportError err) :
    fetchOwnedGames env st = Step.next none
      (cString StatusInternalServerError "Failed to make request to Steam Web API"
        (logLine ("Failed to make request: " ++ err) st)) := by
  simp [fetchOwnedGames, hload, hkey, hreply]

/-- The fetch when the body cannot be read. -/
theorem fetch_unreadableBody (env : Env) (st : Effects) (err : String)
    (hload : env.dotenv = none) (hkey : env.steamAPIKey ≠ "")
    (hreply : env.steamGet (steamURL env.steamAPIKey env.steamId) =
      SteamReply.unreadableBody err) :
    fetchOwnedGames env st = Step.next none
      (cString StatusInternalServerError "Failed to read response body"
        (logLine ("Failed to read response body: " ++ err) st)) := by
  simp [fetchOwnedGames, hload, hkey, hreply]

/-- The fetch when the body is not the expected JSON. -/
theorem fetch_malformedJSON (env : Env) (st : Effects) (err : String)
    (hload : env.dotenv = none) (hkey : env.steamAPIKey ≠ "")
    (hreply : env.steamGet (steamURL env.steamAPIKey env.steamId) =
      SteamReply.malformedJSON err) :
    fetchOwnedGames env st = Step.next none
      (cString StatusInternalServerError "Failed to parse JSON response"
        (logLine ("Failed to parse JSON response: " ++ err) st)) := by
  simp [fetchOwnedGames, hload, hkey, hreply]

/-- The fetch when the reply is decoded: nothing is written or logged. -/
theorem fetch_decoded (env : Env) (st : Effects) (raw : Slice GameInfo)
    (hload : env.dotenv = none) (hkey : env.steamAPIKey ≠ "")
    (hreply : env.steamGet (steamURL env.steamAPIKey env.steamId) =
      SteamReply.decoded raw) :
    fetchOwnedGames env st = Step.next (raw.map (List.map setImageURL)) st := by
  simp [fetchOwnedGames, hload, hkey, hreply]

/-- A fetch that returns a slice that is not nil has written nothing, and the
slice is the decoded one with the image addresses set. -/
theorem fetch_some_inv (env : Env) (st st1 : Effects) (games : List GameInfo)
    (h : fetchOwnedGames env st = Step.next (some games) st1) :
    st1 = st ∧ ∃ raw : List GameInfo, games = raw.map setImageURL := by
  unfold fetchOwnedGames at h
  split at h
  · cases h
  · simp only at h
    split at h
    · cases h
    · split at h
      · cases h
      · cases h
      · cases h
      · rename_i raw _
        cases raw with
        | none => cases h
        | some xs =>
          simp only [Option.map_some', Step.next.injEq, Option.some.injEq] at h
          exact ⟨h.2.symm, xs, h.1.symm⟩

/-! ## Lemmas on the handlers -/

/-- The loop of `GamePlayData` appends one summary per game, in order. -/
theorem foldl_playDataStep (games : List GameInfo) :
    ∀ acc : Slice GameData,
      Slice.toList (games.foldl playDataStep acc) =
        Slice.toList acc ++ games.map (fun g => ⟨g.Name, g.ImageURL, playMessage g⟩) := by
  induction games with
  | nil => intro acc; simp
  | cons g rest ih =>
    intro acc
    rw [List.foldl_cons, ih]
    simp [playDataStep, Slice.append, Slice.toList]

/-- What `GamePlayData` does after a fetch that returned a slice. -/
theorem GamePlayData_of_fetch (env : Env) (games : List GameInfo) (st : Effects)
    (hfetch : fetchOwnedGames env Effects.fresh = Step.next (some games) st) :
    GamePlayData env = Step.next ()
      ⟨some StatusOK, [Payload.gameData (games.foldl playDataStep none)], []⟩ := by
  have hst := (fetch_some_inv env _ _ _ hfetch).1
  subst hst
  unfold GamePlayData
  rw [hfetch]
  simp [cJSON, Effects.write, Effects.fresh]

/-- The message of the loop, with the two tests joined and the division
written as the integer division of whole days. -/
theorem playMessage_eq (g : GameInfo) :
    playMessage g =
      if g.Playtime > 0 ∧ g.Playtime / 1440 > 0 then
        "You have played " ++ g.Name ++ " for a total of " ++ fmtD (g.Playtime / 1440) ++ " days"
      else "" := by
  unfold playMessage
  by_cases hp : g.Playtime > 0
  · have hd : Int.tdiv g.Playtime 1440 = g.Playtime / 1440 :=
      Int.tdiv_eq_ediv (by omega) (by decide)
    simp only [hp, hd, if_true, true_and]
  · simp [hp]

/-- The loop of `GetTopGenres` when every lookup gives genres: one entry per
game is appended, in order, and the slice is written as JSON. -/
theorem genreLoop_ok (f : GameInfo → Except String (Slice GenreInfo)) :
    ∀ (l : List GameInfo) (acc : Slice TopGenreGameInfo) (st : Effects),
      (∀ g ∈ l, ∃ gs, f g = Except.ok gs) →
      ∃ (out : Slice TopGenreGameInfo) (added : List TopGenreGameInfo),
        genreLoop (pureLookup f) l acc st =
          Step.next () (cJSON StatusOK (Payload.topGenres out) st) ∧
        Slice.toList out = Slice.toList acc ++ added ∧
        List.Forall₂ (fun g t => t.Name = g.Name ∧ f g = Except.ok t.Genre) l added := by
  intro l
  induction l with
  | nil =>
    intro acc st _
    exact ⟨acc, [], rfl, by simp, List.Forall₂.nil⟩
  | cons g rest ih =>
    intro acc st h
    obtain ⟨gs, hgs⟩ := h g (List.mem_cons_self _ _)
    obtain ⟨out, added, h1, h2, h3⟩ :=
      ih (Slice.append acc ⟨g.Name, gs⟩) st (fun x hx => h x (List.mem_cons_of_mem _ hx))
    refine ⟨out, ⟨g.Name, gs⟩ :: added, ?_, ?_, List.Forall₂.cons ⟨rfl, hgs⟩ h3⟩
    · simp only [genreLoop, pureLookup, hgs]
      exact h1
    · rw [h2]
      simp [Slice.append, Slice.toList]

/-- The loop of `GetTopGenres` when some lookup fails: the error text is the
only thing written. -/
theorem genreLoop_err (f : GameInfo → Except String (Slice GenreInfo)) :
    ∀ (l : List GameInfo) (acc : Slice TopGenreGameInfo) (st : Effects),
      (∃ g ∈ l, ∃ e, f g = Except.error e) →
      genreLoop (pureLookup f) l acc st =
        Step.next () (cString StatusInternalServerError "Could not find game genres" st) := by
  intro l
  induction l with
  | nil =>
    intro acc st h
    obtain ⟨g, hg, _⟩ := h
    cases hg
  | cons g rest ih =>
    intro acc st h
    cases hfg : f g with
    | error e => simp [genreLoop, pureLookup, hfg]
    | ok gs =>
      simp only [genreLoop, pureLookup, hfg]
      apply ih
      obtain ⟨x, hx, e, he⟩ := h
      rcases List.mem_cons.mp hx with rfl | hx
      · rw [hfg] at he; cases he
      · exact ⟨x, hx, e, he⟩

/-- What `GetTopGenres` does after a fetch that returned a slice: it runs the
loop over the ranked games on an untouched response. -/
theorem GetTopGenresWith_of_fetch (lookup : GenreLookup) (sortSlice : SortSlice) (env : Env)
    (games : List GameInfo) (st : Effects)
    (hfetch : fetchOwnedGames env Effects.fresh = Step.next (some games) st) :
    GetTopGenresWith lookup sortSlice env =
      genreLoop lookup (Slice.toList (topFiveGames sortSlice (some games))) none
        Effects.fresh := by
  have hst := (fetch_some_inv env _ _ _ hfetch).1
  subst hst
  unfold GetTopGenresWith
  rw [hfetch]
  cases htop : topFiveGames sortSlice (some games) with
  | none => simp [topFiveGames_eq_none] at htop
  | some ranked => simp [htop, Slice.toList]

/-- The fetch never writes the text "Could not find top games". -/
theorem fetch_body_no_topGames (env : Env) :
    Payload.text "Could not find top games" ∉
      (fetchOwnedGames env Effects.fresh).effects.body := by
  unfold fetchOwnedGames
  split
  · simp [Step.effects, logLine, Effects.fresh]
  · simp only
    split
    · simp [Step.effects, logLine, cString, Effects.write, Effects.fresh]
    · split <;> simp [Step.effects, logLine, cString, Effects.write, Effects.fresh]

/-- The genre lookup of the program writes nothing to the response. -/
theorem fetchGenreData_body (tbl : Char → Char) (env : Env) (game : GameInfo) (st : Effects) :
    (fetchGenreData tbl env game st).effects.body = st.body := by
  unfold fetchGenreData
  split
  · simp [Step.effects, logLine]
  · split <;> simp [Step.effects]

/-- With a lookup that writes nothing to the response, the loop of
`GetTopGenres` adds to the body at most one piece, and that piece is not the
text "Could not find top games". -/
theorem genreLoop_body (lookup : GenreLookup)
    (hl : ∀ game st, (lookup game st).effects.body = st.body) :
    ∀ (l : List GameInfo) (acc : Slice TopGenreGameInfo) (st : Effects),
      (genreLoop lookup l acc st).effects.body = st.body ∨
      ∃ p, (genreLoop lookup l acc st).effects.body = st.body ++ [p] ∧
        p ≠ Payload.text "Could not find top games" := by
  intro l
  induction l with
  | nil =>
    intro acc st
    exact Or.inr ⟨Payload.topGenres acc, by simp [genreLoop, Step.effects, cJSON, Effects.write],
      by simp⟩
  | cons g rest ih =>
    intro acc st
    have hg := hl g st
    unfold genreLoop
    cases hlk : lookup g st with
    | exit st1 =>
      rw [hlk] at hg
      exact Or.inl (by simpa [Step.effects] using hg)
    | next r st1 =>
      rw [hlk] at hg
      have hb : st1.body = st.body := by simpa [Step.effects] using hg
      cases r with
      | error e =>
        exact Or.inr ⟨Payload.text "Could not find game genres",
          by simp [Step.effects, cString, Effects.write, hb], by decide⟩
      | ok genre =>
        simp only
        rw [← hb]
        exact ih _ st1

/-! ## Lemmas on the slug -/

/-- Replacing the one-rune string " " is a map over the runes. -/
theorem replaceScan_space (l : List Char) :
    replaceScan [' '] ['-'] 0 l = l.map (fun c => if c = ' ' then '-' else c) := by
  induction l with
  | nil => rfl
  | cons c cs ih =>
    by_cases h : c = ' '
    · subst h
      simp [replaceScan, ih]
    · have h2 : ¬ ' ' = c := fun e => h e.symm
      simp [replaceScan, ih, h, h2]

/-- The call `strings.ReplaceAll(name, " ", "-")` is a map over the runes. -/
theorem stringsReplaceAll_space (s : String) :
    stringsReplaceAll s " " "-" =
      String.mk (s.data.map (fun c => if c = ' ' then '-' else c)) := by
  have h : (" " : String).data ≠ [] := by decide
  simp only [stringsReplaceAll, h, if_false]
  exact congrArg String.mk (replaceScan_space s.data)

/-- The class `\w` holds the letters and digits of ASCII and the underscore. -/
theorem perlWord_eq (c : Char) : perlWord c = asciiWordChar c := by
  simp only [perlWord, asciiWordChar, specWordChar, Char.isAlpha, Char.isUpper, Char.isLower, Char.isDigit,
    Char.le_def]
  rw [Bool.eq_iff_iff]
  simp only [decide_eq_true_eq, Bool.or_eq_true, Bool.and_eq_true, beq_iff_eq]
  have e0 : ('0' : Char).val = 48 := rfl
  have e9 : ('9' : Char).val = 57 := rfl
  have eA : ('A' : Char).val = 65 := rfl
  have eZ : ('Z' : Char).val = 90 := rfl
  have ea : ('a' : Char).val = 97 := rfl
  have ez : ('z' : Char).val = 122 := rfl
  simp only [e0, e9, eA, eZ, ea, ez, ge_iff_le]
  tauto

/-- Replacing by nothing the runes of a class is filtering them out. -/
theorem replaceAllString_empty (cls : Char → Bool) (s : String) :
    replaceAllString cls s "" = String.mk (s.data.filter (fun c => !cls c)) := by
  unfold replaceAllString
  congr 1
  induction s.data with
  | nil => rfl
  | cons c cs ih =>
    cases h : cls c <;> simp [List.flatMap_cons, List.filter_cons, h, ih]

/-- Lower-casing and the replacement of spaces can be done in either order,
when no rune outside ASCII is lower-cased to a space. -/
theorem unicodeToLower_space (tbl : Char → Char)
    (htbl : ∀ c : Char, 127 < c.val → tbl c ≠ ' ') (c : Char) :
    unicodeToLower tbl (if c = ' ' then '-' else c) =
      (if unicodeToLower tbl c = ' ' then '-' else unicodeToLower tbl c) := by
  by_cases hc : c = ' '
  · subst hc
    rfl
  · simp only [hc, if_false]
    have hne : unicodeToLower tbl c ≠ ' ' := by
      unfold unicodeToLower
      by_cases h127 : c.val ≤ 127
      · simp only [h127, if_true]
        by_cases hup : 'A' ≤ c ∧ c ≤ 'Z'
        · simp only [hup, and_self, if_true]
          have h1 : 65 ≤ c.toNat ∧ c.toNat ≤ 90 := by
            simpa [Char.le_def, Char.toNat, UInt32.le_def] using hup
          generalize c.toNat = n at h1
          obtain ⟨h1, h2⟩ := h1
          interval_cases n <;> decide
        · simp only [hup, if_false]
          exact hc
      · simp only [h127, if_false]
        exact htbl c (by simpa using h127)
    simp [hne]

/-- The slug of the program is the slug of the specification. -/
theorem formattedName_eq (tbl : Char → Char)
    (htbl : ∀ c : Char, 127 < c.val → tbl c ≠ ' ') (game : GameInfo) :
    formattedName tbl game = specSlug asciiWordChar tbl game.Name := by
  unfold formattedName specSlug
  simp only [stringsReplaceAll_space, stringsToLower, replaceAllString_empty, List.map_map]
  congr 1
  have hmap : List.map (unicodeToLower tbl ∘ fun c => if c = ' ' then '-' else c) game.Name.data =
      List.map ((fun c => if c = ' ' then '-' else c) ∘ unicodeToLower tbl) game.Name.data := by
    refine List.map_congr_left ?_
    intro c _
    exact unicodeToLower_space tbl htbl c
  rw [hmap]
  refine List.filter_congr ?_
  intro c _
  simp [notWordOrHyphen, perlWord_eq]

/-! ## The properties of the specification -/

/-- C1: for every slice of games, nil and empty included, `topFiveGames`
returns a slice of length exactly `min 5 (len games)`; it never returns more
than five records, and it returns nothing for a nil or an empty input. -/
theorem topFiveGames_len (sortSlice : SortSlice) (hS : SortContract sortSlice)
    (games : Slice GameInfo) :
    Slice.len (topFiveGames sortSlice games) = min 5 (Slice.len games) ∧
    Slice.len (topFiveGames sortSlice games) ≤ 5 ∧
    Slice.toList (topFiveGames sortSlice none) = [] ∧
    Slice.toList (topFiveGames sortSlice (some [])) = [] := by
  have hlen : ∀ g : Slice GameInfo,
      Slice.len (topFiveGames sortSlice g) = min 5 (Slice.len g) := by
    intro g
    simp only [Slice.len, topFiveGames_toList, List.length_take,
      (sorted_toList_perm hS g).length_eq]
  refine ⟨hlen games, ?_, ?_, ?_⟩
  · rw [hlen]; exact Nat.min_le_left _ _
  · exact List.eq_nil_of_length_eq_zero (by simpa [Slice.len, Slice.toList] using hlen none)
  · exact List.eq_nil_of_length_eq_zero (by simpa [Slice.len, Slice.toList] using hlen (some []))

/-- C1 at the insertion sort of the Go library, on four games. -/
theorem topFiveGames_len_witness :
    SortContract insertionSort ∧
    Slice.len (topFiveGames insertionSort
        (some [⟨1, "a", 3, ""⟩, ⟨2, "b", 9, ""⟩, ⟨3, "c", 0, ""⟩, ⟨4, "d", 9, ""⟩])) = 4 :=
  ⟨insertionSort_contract,
    (topFiveGames_len insertionSort insertionSort_contract
      (some [⟨1, "a", 3, ""⟩, ⟨2, "b", 9, ""⟩, ⟨3, "c", 0, ""⟩, ⟨4, "d", 9, ""⟩])).1⟩

/-- C2: for every slice of games, the result of `topFiveGames` is the first
`min 5 n` entries of a rearrangement of the input that is in non-increasing
order of playtime.  So the result is sorted descending by playtime, every game
in it is a game of the input and occurs no more often than there, and no game
left out has a greater playtime than a returned one.  Games with playtimes
10, 500 and 200 come back in the order 500, 200, 10. -/
theorem topFiveGames_ranked (sortSlice : SortSlice) (hS : SortContract sortSlice)
    (games : Slice GameInfo) :
    (∃ p : List GameInfo, List.Perm p (Slice.toList games) ∧
      p.Pairwise (fun a b => a.Playtime ≥ b.Playtime) ∧
      Slice.toList (topFiveGames sortSlice games) = p.take (min 5 (Slice.len games))) ∧
    (Slice.toList (topFiveGames sortSlice games)).Pairwise
      (fun a b => a.Playtime ≥ b.Playtime) ∧
    (∀ g : GameInfo, (Slice.toList (topFiveGames sortSlice games)).count g ≤
      (Slice.toList games).count g) ∧
    (∃ rest : List GameInfo,
      List.Perm (Slice.toList (topFiveGames sortSlice games) ++ rest) (Slice.toList games) ∧
      ∀ x ∈ rest, ∀ y ∈ Slice.toList (topFiveGames sortSlice games),
        x.Playtime ≤ y.Playtime) ∧
    (∀ a b c : GameInfo,
      topFiveGames sortSlice
          (some [{ a with Playtime := 10 }, { b with Playtime := 500 },
            { c with Playtime := 200 }]) =
        some [{ b with Playtime := 500 }, { c with Playtime := 200 },
          { a with Playtime := 10 }]) := by
  have hperm := sorted_toList_perm hS games
  have hsort := sorted_toList_pairwise hS games
  have htl := topFiveGames_toList sortSlice games
  refine ⟨⟨_, hperm, hsort, ?_⟩, ?_, ?_, ⟨(Slice.toList (games.map (sortSlice byPlaytime))).drop 5,
    ?_, ?_⟩, ?_⟩
  · rw [htl, Slice.len, ← hperm.length_eq, List.take_eq_take]
    omega
  · rw [htl]
    exact hsort.sublist (List.take_sublist _ _)
  · intro g
    rw [htl, ← hperm.count_eq g]
    exact (List.take_sublist _ _).count_le g
  · rw [htl, List.take_append_drop]
    exact hperm
  · intro x hx y hy
    rw [htl] at hy
    have h := hsort
    rw [← List.take_append_drop 5 (Slice.toList (games.map (sortSlice byPlaytime)))] at h
    exact (List.pairwise_append.mp h).2.2 y hy x hx
  · intro a b c
    have hp3 := hS.perm byPlaytime [{ a with Playtime := 10 }, { b with Playtime := 500 },
      { c with Playtime := 200 }]
    have hs3 := sorted_toList_pairwise hS (some [{ a with Playtime := 10 },
      { b with Playtime := 500 }, { c with Playtime := 200 }])
    have he := sorted_three _ _ _ _ rfl rfl rfl hp3 hs3
    have hl : ¬ (sortSlice byPlaytime [{ a with Playtime := 10 }, { b with Playtime := 500 },
        { c with Playtime := 200 }]).length > 5 := by
      rw [hp3.length_eq]; simp
    simp only [topFiveGames, Option.map_some', Slice.len, Slice.toList, hl, if_false]
    rw [he]

/-- C2 at the insertion sort of the Go library: seven games, two of them with
the same playtime. -/
theorem topFiveGames_ranked_witness :
    SortContract insertionSort ∧
    (Slice.toList (topFiveGames insertionSort
      (some [⟨1, "a", 3, ""⟩, ⟨2, "b", 9, ""⟩, ⟨3, "c", 0, ""⟩, ⟨4, "d", 9, ""⟩,
        ⟨5, "e", 7, ""⟩, ⟨6, "f", 1, ""⟩, ⟨7, "g", 4, ""⟩]))).Pairwise
      (fun a b => a.Playtime ≥ b.Playtime) :=
  ⟨insertionSort_contract,
    (topFiveGames_ranked insertionSort insertionSort_contract
      (some [⟨1, "a", 3, ""⟩, ⟨2, "b", 9, ""⟩, ⟨3, "c", 0, ""⟩, ⟨4, "d", 9, ""⟩,
        ⟨5, "e", 7, ""⟩, ⟨6, "f", 1, ""⟩, ⟨7, "g", 4, ""⟩])).2.1⟩

/-- C3, as stated, fails: the name "Pokémon" lower-cased is "pokémon", it has
no space, and each of its characters is a letter, so the slug of the claim is
"pokémon"; the slug that `fetchGenreData` places in the address it requests is
"pokmon", because the class `\w` of the program holds the letters of ASCII
only. -/
theorem fetchGenreData_slug_drops_letter :
    latin1Letter 'é' = true ∧
    specSlug latin1WordChar plainTable "Pokémon" = "pokémon" ∧
    formattedName plainTable ⟨7, "Pokémon", 0, ""⟩ = "pokmon" ∧
    fetchGenreData plainTable envEcho ⟨7, "Pokémon", 0, ""⟩ Effects.fresh =
      Step.next (Except.ok (some [⟨"https://api.rawg.io/api/games/pokmon?key=r"⟩]))
        Effects.fresh ∧
    formattedName plainTable ⟨7, "Pokémon", 0, ""⟩ ≠
      specSlug latin1WordChar plainTable "Pokémon" := by
  refine ⟨by decide, by decide, by decide, rfl, by decide⟩

/-- C3, amended: for every game name, when the configuration loads,
`fetchGenreData` requests the address made of "https://api.rawg.io/api/games/",
the slug, "?key=" and the key, and returns what that request gives; the slug
equals the name lower-cased, with every space replaced by a hyphen, and then
with every character removed that is not a letter of ASCII, a digit of ASCII,
an underscore or a hyphen, so that letters and digits outside ASCII are removed
as well; for the name "Half-Life 2: Episode One" the slug is
"half-life-2-episode-one".  The case table of the library is any table that
lower-cases no rune outside ASCII to a space. -/
theorem fetchGenreData_slug (tbl : Char → Char)
    (htbl : ∀ c : Char, 127 < c.val → tbl c ≠ ' ') (env : Env) (hload : env.dotenv = none)
    (game : GameInfo) (st : Effects) :
    fetchGenreData tbl env game st =
      (match env.rawgGet ("https://api.rawg.io/api/games/" ++
          specSlug asciiWordChar tbl game.Name ++ "?key=" ++ env.rawgAPIKey) with
        | RawgReply.transportError err => Step.next (Except.error err) st
        | RawgReply.decodeError err => Step.next (Except.error err) st
        | RawgReply.decoded genres => Step.next (Except.ok genres) st) ∧
    formattedName tbl game = specSlug asciiWordChar tbl game.Name ∧
    fetchGenreData tbl env { game with Name := "Half-Life 2: Episode One" } st =
      (match env.rawgGet ("https://api.rawg.io/api/games/" ++ "half-life-2-episode-one" ++
          "?key=" ++ env.rawgAPIKey) with
        | RawgReply.transportError err => Step.next (Except.error err) st
        | RawgReply.decodeError err => Step.next (Except.error err) st
        | RawgReply.decoded genres => Step.next (Except.ok genres) st) := by
  have hrun : ∀ g : GameInfo, fetchGenreData tbl env g st =
      (match env.rawgGet ("https://api.rawg.io/api/games/" ++
          specSlug asciiWordChar tbl g.Name ++ "?key=" ++ env.rawgAPIKey) with
        | RawgReply.transportError err => Step.next (Except.error err) st
        | RawgReply.decodeError err => Step.next (Except.error err) st
        | RawgReply.decoded genres => Step.next (Except.ok genres) st) := by
    intro g
    simp only [fetchGenreData, hload, rawgUrl, formattedName_eq tbl htbl g]
  refine ⟨hrun game, formattedName_eq tbl htbl game, ?_⟩
  have hs : specSlug asciiWordChar tbl "Half-Life 2: Episode One" =
      "half-life-2-episode-one" := rfl
  rw [hrun, hs]

/-- C3, amended, at a table that leaves the runes outside ASCII alone and a
genre service that answers with the address requested, for a name with
capitals, spaces, punctuation, an underscore and a letter outside ASCII. -/
theorem fetchGenreData_slug_witness :
    (∀ c : Char, 127 < c.val → plainTable c ≠ ' ') ∧
    envEcho.dotenv = none ∧
    fetchGenreData plainTable envEcho ⟨7, "Pokémon_X: The  Game!", 0, ""⟩ Effects.fresh =
      Step.next
        (Except.ok (some [⟨"https://api.rawg.io/api/games/pokmon_x-the--game?key=r"⟩]))
        Effects.fresh ∧
    specSlug asciiWordChar plainTable "Pokémon_X: The  Game!" = "pokmon_x-the--game" :=
  have h : ∀ c : Char, 127 < c.val → plainTable c ≠ ' ' := by
    intro c hc he
    rw [plainTable] at he
    rw [he] at hc
    exact absurd hc (by decide)
  ⟨h, rfl,
    (fetchGenreData_slug plainTable h envEcho rfl ⟨7, "Pokémon_X: The  Game!", 0, ""⟩
      Effects.fresh).1.trans rfl,
    by decide⟩

/-- C4: for every game of a successful fetch, `GamePlayData` sets the message
of the summary to "You have played (Name) for a total of (days) days", with
`days` the integer quotient of `Playtime` by 1440, exactly when `Playtime > 0`
and that quotient is positive, and to the empty string otherwise.  A playtime
of 1500 gives a message with 1 day; 1439 and 0 give the empty message. -/
theorem GamePlayData_message (env : Env) (games : List GameInfo) (st : Effects)
    (hfetch : fetchOwnedGames env Effects.fresh = Step.next (some games) st) :
    (∃ out : Slice GameData,
      GamePlayData env = Step.next () ⟨some StatusOK, [Payload.gameData out], []⟩ ∧
      (Slice.toList out).map GameData.Message = games.map (fun g =>
        if g.Playtime > 0 ∧ g.Playtime / 1440 > 0 then
          "You have played " ++ g.Name ++ " for a total of " ++ fmtD (g.Playtime / 1440) ++
            " days"
        else "")) ∧
    (∀ g : GameInfo,
      playMessage { g with Playtime := 1500 } =
        "You have played " ++ g.Name ++ " for a total of 1 days" ∧
      playMessage { g with Playtime := 1439 } = "" ∧
      playMessage { g with Playtime := 0 } = "") := by
  refine ⟨⟨_, GamePlayData_of_fetch env games st hfetch, ?_⟩, ?_⟩
  · rw [foldl_playDataStep]
    simp only [Slice.toList, List.nil_append, List.map_map]
    refine List.map_congr_left ?_
    intro g _
    exact playMessage_eq g
  · intro g
    refine ⟨?_, ?_, ?_⟩
    · have hd : fmtD ((1500 : Int) / 1440) = "1" := by decide
      rw [playMessage_eq]
      simp only [hd, String.append_assoc]
      simp
    · rw [playMessage_eq]; rfl
    · rw [playMessage_eq]; rfl

/-- C4 at a fetch of three games with playtimes 1500, 1439 and 0. -/
theorem GamePlayData_message_witness :
    fetchOwnedGames envThree Effects.fresh = Step.next
      (some [⟨400, "Portal", 1500, "https://cdn.akamai.steamstatic.com/steam/apps/400/header.jpg"⟩,
        ⟨220, "Half-Life 2", 1439, "https://cdn.akamai.steamstatic.com/steam/apps/220/header.jpg"⟩,
        ⟨730, "CS", 0, "https://cdn.akamai.steamstatic.com/steam/apps/730/header.jpg"⟩])
      Effects.fresh ∧
    ∃ out : Slice GameData,
      GamePlayData envThree = Step.next () ⟨some StatusOK, [Payload.gameData out], []⟩ ∧
      (Slice.toList out).map GameData.Message =
        ["You have played Portal for a total of 1 days", "", ""] :=
  ⟨by decide,
    (GamePlayData_message envThree _ Effects.fresh
      (by decide : fetchOwnedGames envThree Effects.fresh = Step.next
        (some [⟨400, "Portal", 1500, "https://cdn.akamai.steamstatic.com/steam/apps/400/header.jpg"⟩,
          ⟨220, "Half-Life 2", 1439, "https://cdn.akamai.steamstatic.com/steam/apps/220/header.jpg"⟩,
          ⟨730, "CS", 0, "https://cdn.akamai.steamstatic.com/steam/apps/730/header.jpg"⟩])
        Effects.fresh)).1⟩

/-- C5, as stated, fails: with no key configured the fetch fails, and the body
the client receives from `OwnedGames` is not the single text "Could not find
games": the cause, written by `fetchOwnedGames`, stands in front of it. -/
theorem OwnedGames_cause_in_response :
    fetchOwnedGames envNoKey Effects.fresh =
      Step.next none ⟨some StatusInternalServerError,
        [Payload.text "Steam API key not found"], ["Steam API key not found"]⟩ ∧
    (OwnedGames envNoKey).effects.body =
      [Payload.text "Steam API key not found", Payload.text "Could not find games"] ∧
    (OwnedGames envNoKey).effects.body ≠ [Payload.text "Could not find games"] := by
  decide

/-- C5, amended: for every failure of the owned-games fetch (missing key,
transport error, unreadable body, malformed JSON) the response of `OwnedGames`
has the server-error status, and its body is the fixed text that
`fetchOwnedGames` writes for that kind of failure followed by "Could not find
games"; the error value of the failed call goes to the log only. -/
theorem OwnedGames_fetch_failure (env : Env) (hload : env.dotenv = none) :
    (env.steamAPIKey = "" →
      OwnedGames env = Step.next ()
        ⟨some StatusInternalServerError,
          [Payload.text "Steam API key not found", Payload.text "Could not find games"],
          ["Steam API key not found"]⟩) ∧
    (∀ err : String, env.steamAPIKey ≠ "" →
      env.steamGet (steamURL env.steamAPIKey env.steamId) = SteamReply.transportError err →
      OwnedGames env = Step.next ()
        ⟨some StatusInternalServerError,
          [Payload.text "Failed to make request to Steam Web API",
            Payload.text "Could not find games"],
          ["Failed to make request: " ++ err]⟩) ∧
    (∀ err : String, env.steamAPIKey ≠ "" →
      env.steamGet (steamURL env.steamAPIKey env.steamId) = SteamReply.unreadableBody err →
      OwnedGames env = Step.next ()
        ⟨some StatusInternalServerError,
          [Payload.text "Failed to read response body", Payload.text "Could not find games"],
          ["Failed to read response body: " ++ err]⟩) ∧
    (∀ err : String, env.steamAPIKey ≠ "" →
      env.steamGet (steamURL env.steamAPIKey env.steamId) = SteamReply.malformedJSON err →
      OwnedGames env = Step.next ()
        ⟨some StatusInternalServerError,
          [Payload.text "Failed to parse JSON response", Payload.text "Could not find games"],
          ["Failed to parse JSON response: " ++ err]⟩) := by
  refine ⟨?_, ?_, ?_, ?_⟩
  · intro hkey
    simp [OwnedGames, fetch_noKey env _ hload hkey, cString, logLine, Effects.write,
      Effects.fresh]
  · intro err hkey hreply
    simp [OwnedGames, fetch_transportError env _ err hload hkey hreply, cString, logLine,
      Effects.write, Effects.fresh]
  · intro err hkey hreply
    simp [OwnedGames, fetch_unreadableBody env _ err hload hkey hreply, cString, logLine,
      Effects.write, Effects.fresh]
  · intro err hkey hreply
    simp [OwnedGames, fetch_malformedJSON env _ err hload hkey hreply, cString, logLine,
      Effects.write, Effects.fresh]

/-- C5, amended, at a request with no key configured. -/
theorem OwnedGames_fetch_failure_witness :
    envNoKey.dotenv = none ∧ envNoKey.steamAPIKey = "" ∧
    OwnedGames envNoKey = Step.next ()
      ⟨some StatusInternalServerError,
        [Payload.text "Steam API key not found", Payload.text "Could not find games"],
        ["Steam API key not found"]⟩ :=
  ⟨rfl, rfl, (OwnedGames_fetch_failure envNoKey rfl).1 rfl⟩

/-- C6: with the genre lookup an arbitrary function from a game to genres or an
error, and for every fetch that returned a slice: if the lookup fails for at
least one of the ranked top games, `GetTopGenres` responds with the
server-error status and the text "Could not find game genres" and nothing else,
so no partial list; if every lookup succeeds it responds with exactly one entry
of `Name` and `Genre` per ranked game, in ranked order. -/
theorem GetTopGenres_fail_fast (sortSlice : SortSlice) (env : Env)
    (f : GameInfo → Except String (Slice GenreInfo)) (games : List GameInfo) (st : Effects)
    (hfetch : fetchOwnedGames env Effects.fresh = Step.next (some games) st) :
    ((∃ g ∈ Slice.toList (topFiveGames sortSlice (some games)), ∃ e, f g = Except.error e) →
      GetTopGenresWith (pureLookup f) sortSlice env = Step.next ()
        ⟨some StatusInternalServerError, [Payload.text "Could not find game genres"], []⟩) ∧
    ((∀ g ∈ Slice.toList (topFiveGames sortSlice (some games)), ∃ gs, f g = Except.ok gs) →
      ∃ out : Slice TopGenreGameInfo,
        GetTopGenresWith (pureLookup f) sortSlice env = Step.next ()
          ⟨some StatusOK, [Payload.topGenres out], []⟩ ∧
        List.Forall₂ (fun g t => t.Name = g.Name ∧ f g = Except.ok t.Genre)
          (Slice.toList (topFiveGames sortSlice (some games))) (Slice.toList out)) := by
  have hrun := GetTopGenresWith_of_fetch (pureLookup f) sortSlice env games st hfetch
  refine ⟨?_, ?_⟩
  · intro h
    rw [hrun, genreLoop_err f _ none Effects.fresh h]
    rfl
  · intro h
    obtain ⟨out, added, h1, h2, h3⟩ := genreLoop_ok f _ none Effects.fresh h
    refine ⟨out, ?_, ?_⟩
    · rw [hrun, h1]
      rfl
    · have h4 : Slice.toList out = added := by simpa [Slice.toList] using h2
      rw [h4]
      exact h3

/-- C6 at a fetch of three games and a lookup that fails for the game named
"Half-Life 2", which is ranked second. -/
theorem GetTopGenres_fail_fast_witness :
    fetchOwnedGames envThree Effects.fresh = Step.next
      (some [⟨400, "Portal", 1500, "https://cdn.akamai.steamstatic.com/steam/apps/400/header.jpg"⟩,
        ⟨220, "Half-Life 2", 1439, "https://cdn.akamai.steamstatic.com/steam/apps/220/header.jpg"⟩,
        ⟨730, "CS", 0, "https://cdn.akamai.steamstatic.com/steam/apps/730/header.jpg"⟩])
      Effects.fresh ∧
    GetTopGenresWith
        (pureLookup (fun g => if g.Name = "Half-Life 2" then Except.error "down"
          else Except.ok (some [⟨"Action"⟩])))
        insertionSort envThree = Step.next ()
      ⟨some StatusInternalServerError, [Payload.text "Could not find game genres"], []⟩ :=
  ⟨by decide,
    (GetTopGenres_fail_fast insertionSort envThree
      (fun g => if g.Name = "Half-Life 2" then Except.error "down"
        else Except.ok (some [⟨"Action"⟩])) _ Effects.fresh
      (by decide : fetchOwnedGames envThree Effects.fresh = Step.next
        (some [⟨400, "Portal", 1500, "https://cdn.akamai.steamstatic.com/steam/apps/400/header.jpg"⟩,
          ⟨220, "Half-Life 2", 1439, "https://cdn.akamai.steamstatic.com/steam/apps/220/header.jpg"⟩,
          ⟨730, "CS", 0, "https://cdn.akamai.steamstatic.com/steam/apps/730/header.jpg"⟩])
        Effects.fresh)).1
      ⟨⟨220, "Half-Life 2", 1439, "https://cdn.akamai.steamstatic.com/steam/apps/220/header.jpg"⟩,
        by decide, "down", rfl⟩⟩

/-- C7, as stated, fails: with no key configured the fetch fails, and the
response of `GetTopGames` is a server-error response. -/
theorem GetTopGames_status_on_failure :
    fetchOwnedGames envNoKey Effects.fresh =
      Step.next none ⟨some StatusInternalServerError,
        [Payload.text "Steam API key not found"], ["Steam API key not found"]⟩ ∧
    (GetTopGames insertionSort envNoKey).effects.status = some StatusInternalServerError ∧
    (GetTopGames insertionSort envNoKey).effects.body =
      [Payload.text "Steam API key not found", Payload.games none] := by
  decide

/-- C7, amended: when the owned-games fetch fails, `GetTopGames` does not fault
and writes no error text of its own: ranking the absent input yields the absent
result, and the handler writes that result as JSON.  The response is a
server-error response all the same: `fetchOwnedGames` has sent the server-error
status with its text for the failure, and the result follows that text. -/
theorem GetTopGames_fetch_failure (sortSlice : SortSlice) (env : Env)
    (hload : env.dotenv = none) :
    topFiveGames sortSlice none = none ∧
    (env.steamAPIKey = "" →
      GetTopGames sortSlice env = Step.next ()
        ⟨some StatusInternalServerError,
          [Payload.text "Steam API key not found", Payload.games none],
          ["Steam API key not found"]⟩) ∧
    (∀ err : String, env.steamAPIKey ≠ "" →
      env.steamGet (steamURL env.steamAPIKey env.steamId) = SteamReply.transportError err →
      GetTopGames sortSlice env = Step.next ()
        ⟨some StatusInternalServerError,
          [Payload.text "Failed to make request to Steam Web API", Payload.games none],
          ["Failed to make request: " ++ err]⟩) ∧
    (∀ err : String, env.steamAPIKey ≠ "" →
      env.steamGet (steamURL env.steamAPIKey env.steamId) = SteamReply.unreadableBody err →
      GetTopGames sortSlice env = Step.next ()
        ⟨some StatusInternalServerError,
          [Payload.text "Failed to read response body", Payload.games none],
          ["Failed to read response body: " ++ err]⟩) ∧
    (∀ err : String, env.steamAPIKey ≠ "" →
      env.steamGet (steamURL env.steamAPIKey env.steamId) = SteamReply.malformedJSON err →
      GetTopGames sortSlice env = Step.next ()
        ⟨some StatusInternalServerError,
          [Payload.text "Failed to parse JSON response", Payload.games none],
          ["Failed to parse JSON response: " ++ err]⟩) := by
  have hnil : topFiveGames sortSlice none = none := (topFiveGames_eq_none sortSlice none).mpr rfl
  refine ⟨hnil, ?_, ?_, ?_, ?_⟩
  · intro hkey
    simp [GetTopGames, fetch_noKey env _ hload hkey, hnil, cString, cJSON, logLine,
      Effects.write, Effects.fresh]
  · intro err hkey hreply
    simp [GetTopGames, fetch_transportError env _ err hload hkey hreply, hnil, cString, cJSON,
      logLine, Effects.write, Effects.fresh]
  · intro err hkey hreply
    simp [GetTopGames, fetch_unreadableBody env _ err hload hkey hreply, hnil, cString, cJSON,
      logLine, Effects.write, Effects.fresh]
  · intro err hkey hreply
    simp [GetTopGames, fetch_malformedJSON env _ err hload hkey hreply, hnil, cString, cJSON,
      logLine, Effects.write, Effects.fresh]

/-- C7, amended, at a request with no key configured and the insertion sort. -/
theorem GetTopGames_fetch_failure_witness :
    envNoKey.dotenv = none ∧ envNoKey.steamAPIKey = "" ∧
    GetTopGames insertionSort envNoKey = Step.next ()
      ⟨some StatusInternalServerError,
        [Payload.text "Steam API key not found", Payload.games none],
        ["Steam API key not found"]⟩ :=
  ⟨rfl, rfl, (GetTopGames_fetch_failure insertionSort envNoKey rfl).2.1 rfl⟩

/-- C8: for every slice of games decoded from the reply of the ownership
service, `fetchOwnedGames` returns the records of that slice, in order, each
with `ImageURL` equal to "https://cdn.akamai.steamstatic.com/steam/apps/"
followed by the decimal `AppID` followed by "/header.jpg"; for `AppID` 400 it
is "https://cdn.akamai.steamstatic.com/steam/apps/400/header.jpg". -/
theorem fetchOwnedGames_imageURL (env : Env) (st : Effects) (raw : Slice GameInfo)
    (hload : env.dotenv = none) (hkey : env.steamAPIKey ≠ "")
    (hreply : env.steamGet (steamURL env.steamAPIKey env.steamId) = SteamReply.decoded raw) :
    ∃ games : Slice GameInfo,
      fetchOwnedGames env st = Step.next games st ∧
      Slice.toList games = (Slice.toList raw).map (fun g =>
        ⟨g.AppID, g.Name, g.Playtime,
          "https://cdn.akamai.steamstatic.com/steam/apps/" ++ fmtD g.AppID ++ "/header.jpg"⟩) ∧
      (∀ g ∈ Slice.toList games, g.ImageURL =
        "https://cdn.akamai.steamstatic.com/steam/apps/" ++ fmtD g.AppID ++ "/header.jpg") ∧
      (∀ g ∈ Slice.toList games, g.AppID = 400 →
        g.ImageURL = "https://cdn.akamai.steamstatic.com/steam/apps/400/header.jpg") := by
  refine ⟨_, fetch_decoded env st raw hload hkey hreply, ?_, ?_, ?_⟩
  · cases raw with
    | none => rfl
    | some xs => simp [Slice.toList, setImageURL]
  · intro g hg
    cases raw with
    | none => simp [Slice.toList] at hg
    | some xs =>
      simp only [Option.map_some', Slice.toList, List.mem_map] at hg
      obtain ⟨r, _, rfl⟩ := hg
      rfl
  · intro g hg h400
    cases raw with
    | none => simp [Slice.toList] at hg
    | some xs =>
      simp only [Option.map_some', Slice.toList, List.mem_map] at hg
      obtain ⟨r, _, rfl⟩ := hg
      have h4 : r.AppID = 400 := h400
      simp only [setImageURL, h4]
      decide

/-- C8 at a reply of three games, the first with `AppID` 400. -/
theorem fetchOwnedGames_imageURL_witness :
    envThree.dotenv = none ∧ envThree.steamAPIKey ≠ "" ∧
    fetchOwnedGames envThree Effects.fresh = Step.next
      (some [⟨400, "Portal", 1500, "https://cdn.akamai.steamstatic.com/steam/apps/400/header.jpg"⟩,
        ⟨220, "Half-Life 2", 1439, "https://cdn.akamai.steamstatic.com/steam/apps/220/header.jpg"⟩,
        ⟨730, "CS", 0, "https://cdn.akamai.steamstatic.com/steam/apps/730/header.jpg"⟩])
      Effects.fresh := by
  refine ⟨rfl, by decide, ?_⟩
  obtain ⟨games, h1, _⟩ := fetchOwnedGames_imageURL envThree Effects.fresh _ rfl (by decide) rfl
  rw [h1]
  rw [fetch_decoded envThree Effects.fresh _ rfl (by decide) rfl] at h1
  cases h1
  decide

/-- C9: for every fetch that returned a slice, the slice `GamePlayData` returns
has the length of the fetched one and its i-th summary carries the `Name` and
the `ImageURL` of the i-th fetched game: the order of the fetch is kept. -/
theorem GamePlayData_order (env : Env) (games : List GameInfo) (st : Effects)
    (hfetch : fetchOwnedGames env Effects.fresh = Step.next (some games) st) :
    ∃ out : Slice GameData,
      GamePlayData env = Step.next () ⟨some StatusOK, [Payload.gameData out], []⟩ ∧
      Slice.len out = games.length ∧
      ∀ (i : Nat) (hi : i < games.length) (ho : i < (Slice.toList out).length),
        ((Slice.toList out)[i]).Name = (games[i]).Name ∧
        ((Slice.toList out)[i]).ImageUrl = (games[i]).ImageURL := by
  refine ⟨_, GamePlayData_of_fetch env games st hfetch, ?_, ?_⟩
  · rw [Slice.len, foldl_playDataStep]
    simp [Slice.toList]
  · intro i hi ho
    have h := foldl_playDataStep games none
    simp only [Slice.toList, List.nil_append] at h
    simp only [Slice.toList] at ho ⊢
    simp [h]

/-- C9 at a fetch of three games. -/
theorem GamePlayData_order_witness :
    fetchOwnedGames envThree Effects.fresh = Step.next
      (some [⟨400, "Portal", 1500, "https://cdn.akamai.steamstatic.com/steam/apps/400/header.jpg"⟩,
        ⟨220, "Half-Life 2", 1439, "https://cdn.akamai.steamstatic.com/steam/apps/220/header.jpg"⟩,
        ⟨730, "CS", 0, "https://cdn.akamai.steamstatic.com/steam/apps/730/header.jpg"⟩])
      Effects.fresh ∧
    ∃ out : Slice GameData,
      GamePlayData envThree = Step.next () ⟨some StatusOK, [Payload.gameData out], []⟩ ∧
      Slice.len out = 3 :=
  ⟨by decide, by
    obtain ⟨out, h1, h2, _⟩ := GamePlayData_order envThree _ Effects.fresh
      (by decide : fetchOwnedGames envThree Effects.fresh = Step.next
        (some [⟨400, "Portal", 1500, "https://cdn.akamai.steamstatic.com/steam/apps/400/header.jpg"⟩,
          ⟨220, "Half-Life 2", 1439, "https://cdn.akamai.steamstatic.com/steam/apps/220/header.jpg"⟩,
          ⟨730, "CS", 0, "https://cdn.akamai.steamstatic.com/steam/apps/730/header.jpg"⟩])
        Effects.fresh)
    exact ⟨out, h1, h2⟩⟩

/-- C10: in `GetTopGenres` the response "Could not find top games" is never
produced, whatever the fetch gives: `topFiveGames` returns a nil slice only
when its input is nil, and a nil fetch result is answered by the earlier branch
"Could not find games". -/
theorem GetTopGenres_never_top_games_text (tbl : Char → Char) (sortSlice : SortSlice)
    (env : Env) :
    Payload.text "Could not find top games" ∉ (GetTopGenres tbl sortSlice env).effects.body ∧
    (∀ games : Slice GameInfo, topFiveGames sortSlice games = none ↔ games = none) ∧
    (∀ st : Effects, fetchOwnedGames env Effects.fresh = Step.next none st →
      GetTopGenres tbl sortSlice env =
        Step.next () (cString StatusInternalServerError "Could not find games" st)) := by
  have hfb := fetch_body_no_topGames env
  refine ⟨?_, topFiveGames_eq_none sortSlice, ?_⟩
  · cases hf : fetchOwnedGames env Effects.fresh with
    | exit st =>
      rw [hf] at hfb
      simpa [GetTopGenres, GetTopGenresWith, hf] using hfb
    | next og st =>
      rw [hf] at hfb
      cases og with
      | none =>
        have hfb2 : Payload.text "Could not find top games" ∉ st.body := hfb
        simp [GetTopGenres, GetTopGenresWith, hf, Step.effects, cString, Effects.write, hfb2]
      | some games =>
        unfold GetTopGenres
        rw [GetTopGenresWith_of_fetch _ sortSlice env games st hf]
        rcases genreLoop_body _ (fetchGenreData_body tbl env) _ none Effects.fresh with h | h
        · rw [h]; simp [Effects.fresh]
        · obtain ⟨p, h1, h2⟩ := h
          rw [h1]
          simp only [Effects.fresh, List.nil_append, List.mem_singleton]
          exact fun h3 => h2 h3.symm
  · intro st hf
    simp [GetTopGenres, GetTopGenresWith, hf]

end GamersWave
